import Mathlib

/-!
Verification of the authoritative snake-game simulation core
(`src/server/src/rooms/SnakeGameRoom.ts`).

The room code is shallowly embedded below.  Numbers held in JavaScript
variables are modelled as rationals (`ℚ`); scores and kill counts, which the
room only ever holds as non-negative integers, are modelled as `ℕ`
(`Math.max(0, s - 1)` is truncated subtraction, `Math.floor(s / 2)` is `ℕ`
division).  The JavaScript remainder operator `%` is truncated remainder,
embedded as `jsMod` below.  Comparisons of `Math.sqrt(d)` against a
non-negative threshold `t` are embedded as comparisons of `d` against `t^2`,
which is equivalent since both sides are non-negative.  Each source of
randomness (`Math.random()` results and generated food ids) is passed in as
an explicit argument, and the Colyseus `MapSchema` collections, which
iterate in insertion order, are embedded as lists.
-/

namespace Snake

/-! ### JavaScript numerics -/

/-- Floor of a rational, written so that it evaluates in the kernel
(`Rat.floor_def` shows it equals `Int.floor`). -/
def qfloor (q : ℚ) : ℤ := q.num / q.den

/-- Ceiling of a rational, via `qfloor`. -/
def qceil (q : ℚ) : ℤ := -qfloor (-q)

/-- Truncation toward zero, as JavaScript division underlying `%` rounds. -/
def jsTrunc (q : ℚ) : ℤ := if 0 ≤ q then qfloor q else qceil q

/-- The JavaScript remainder operator `v % m`: the remainder of truncating
division, carrying the sign of the dividend. -/
def jsMod (v m : ℚ) : ℚ := v - m * jsTrunc (v / m)

/-- Floor of a non-negative rational as a natural number, as
`Math.floor(Math.random() * len)` produces an array index. -/
def jsFloorNat (q : ℚ) : ℕ := (qfloor q).toNat

/-- The room's `wrapCoordinate(value, max)`. -/
def wrapCoordinate (value mx : ℚ) : ℚ :=
  if value < 0 then mx + jsMod value mx
  else if mx ≤ value then jsMod value mx
  else value

/-! ### Data model

The schema file `SnakeGameState.ts` is not part of the given sources; the
fields below are the ones the room reads and writes, with the spec
describing `Player` (identity, segments, heading angle, base speed,
boosting flag, boost accumulator, score, kills, alive flag, invulnerable
flag, skin selector), `Food`, and the world fields of the shared state. -/

structure Vector2 where
  x : ℚ
  y : ℚ
deriving DecidableEq

structure SnakeSegment where
  position : Vector2
deriving DecidableEq

structure Player where
  id : String
  name : String
  segments : List SnakeSegment
  angle : ℚ
  speed : ℚ
  boosting : Bool
  boostTime : ℚ
  score : ℕ
  kills : ℕ
  alive : Bool
  invulnerable : Bool
  skinId : ℕ
deriving DecidableEq

structure Food where
  id : String
  position : Vector2
  value : ℕ
deriving DecidableEq

structure GameState where
  players : List Player
  foods : List Food
  worldWidth : ℚ
  worldHeight : ℚ
  maxFoods : ℕ
  tickRate : ℚ
  worldBoundaryCollisions : Bool
deriving DecidableEq

/-- The broadcasts the room emits (state replication aside).  The world
boundary branch broadcasts a second `playerDied` message carrying an
explicit null killer field; that shape is kept apart as
`playerDiedAtBoundary`. -/
inductive GameEvent where
  | playerDied (playerId : String)
  | playerDiedAtBoundary (playerId : String)
  | playerKilled (killed : String) (killer : String)
  | foodSpawned (id : String) (position : Vector2) (value : ℕ)
  | foodConsumed (id : String) (playerId : String) (value : ℕ)
deriving DecidableEq

/-- The random inputs one `spawnFood()` call consumes: the generated food
id, the two `Math.random()` draws of `getRandomPosition()` and the draw
deciding the value.  Draws lie in `[0, 1)`. -/
structure SpawnDraw where
  fid : String
  rx : ℚ
  ry : ℚ
  rv : ℚ
deriving DecidableEq

/-- The random inputs one iteration of `spawnFoodFromDeadPlayer` consumes:
the generated food id, the segment-index draw and the two jitter draws.
Draws lie in `[0, 1)`. -/
structure DropDraw where
  fid : String
  ri : ℚ
  jx : ℚ
  jy : ℚ
deriving DecidableEq

/-- Squared Euclidean distance.  The source computes
`Math.sqrt(dx*dx + dy*dy)` and compares it against a non-negative
threshold `t`; that comparison is embedded against `t^2`. -/
def dist2 (a b : Vector2) : ℚ := (a.x - b.x) ^ 2 + (a.y - b.y) ^ 2

/-! ### State containers -/

/-- Lookup in the `players` map (`this.state.players.get(sessionId)`). -/
def findPlayer (st : GameState) (sid : String) : Option Player :=
  st.players.find? (fun p => p.id == sid)

/-- Lookup in the `foods` map. -/
def findFood (st : GameState) (fid : String) : Option Food :=
  st.foods.find? (fun f => f.id == fid)

/-- Writing a player back: the in-place mutation of the object stored under
its id. -/
def setPlayer (st : GameState) (p : Player) : GameState :=
  { st with players := st.players.map (fun q => if q.id == p.id then p else q) }

/-- The map `set`: overwrite the entry under the id when present, append
otherwise. -/
def setFood (st : GameState) (f : Food) : GameState :=
  if st.foods.any (fun g => g.id == f.id) then
    { st with foods := st.foods.map (fun g => if g.id == f.id then f else g) }
  else
    { st with foods := st.foods ++ [f] }

/-- The map `delete` (`this.state.foods.delete(foodId)`). -/
def deleteFood (st : GameState) (fid : String) : GameState :=
  { st with foods := st.foods.filter (fun g => g.id != fid) }

/-! ### Player operations -/

/-- Modelled from the spec: `player.head` lives in the missing schema file
`SnakeGameState.ts`; the spec states the head position is always the
position of `segment[0]` and that any cached head accessor is derived from
it, never diverging. -/
def Player.head (p : Player) : Vector2 :=
  (p.segments.headD ⟨⟨0, 0⟩⟩).position

/-- Modelled from the spec: `player.addSegment()` lives in the missing
schema file; the spec states consumption appends new segments initialized
at the current tail position. -/
def Player.addSegment (p : Player) : Player :=
  { p with segments := p.segments ++ [p.segments.getLastD ⟨⟨0, 0⟩⟩] }

/-- The room's `killPlayer` mutation of the player (the accompanying
`playerDied` broadcast is emitted by the callers below). -/
def killPlayer (p : Player) : Player := { p with alive := false }

/-- The reset `respawnPlayer` performs on a player found in the map:
alive, zeroed score and kills, invulnerable, and a fresh 5-segment body
laid out leftwards from the random spawn position.  The deferred
3000ms-invulnerability timer only touches the flag later and is not part
of the immediate transition. -/
def respawnPlayer (p : Player) (spawn : Vector2) : Player :=
  { p with
    alive := true
    score := 0
    kills := 0
    invulnerable := true
    segments := (List.range 5).map
      (fun (i : ℕ) => ⟨⟨spawn.x - (i : ℚ) * 20, spawn.y⟩⟩) }

/-- The `respawn` message handler: look the sender up and reset it.  The
handler has no guard on the alive flag. -/
def handleRespawn (st : GameState) (sid : String) (spawn : Vector2) : GameState :=
  match findPlayer st sid with
  | none => st
  | some p => setPlayer st (respawnPlayer p spawn)

/-! ### MovementEngine -/

/-- The boost-cost block of `movePlayer`: accumulate the tick time; on
reaching 500ms reset the accumulator and, when more than 5 segments
remain, deduct one score point (`Math.max(0, score - 1)`) and truncate the
tail, otherwise force boosting off.  The inner length test is repeated
exactly as in the source. -/
def applyBoostCost (tickRate : ℚ) (p : Player) : Player :=
  if p.boosting then
    let bt := p.boostTime + tickRate
    if 500 ≤ bt then
      if 5 < p.segments.length then
        if 5 < p.segments.length then
          { p with boostTime := 0, score := p.score - 1,
                   segments := p.segments.dropLast }
        else
          { p with boostTime := 0, score := p.score - 1, boosting := false }
      else
        { p with boostTime := 0, boosting := false }
    else
      { p with boostTime := bt }
  else
    { p with boostTime := 0 }

/-- The body-update loop of `movePlayer`: walking from the tail to index 1,
each segment takes the position the segment ahead of it held before this
tick, and the head is then overwritten; on a list this leaves
`newHead :: segments.dropLast`. -/
def shiftBody (newHead : Vector2) (p : Player) : Player :=
  { p with segments := ⟨newHead⟩ :: p.segments.dropLast }

/-- The room's `movePlayer`, with the trigonometric functions on degrees
passed in as oracles (`cosDeg a` stands for `Math.cos(a * Math.PI / 180)`):
no claim below depends on their values.  The speed multiplier is read
before the boost cost may clear the boosting flag, and the head position
is read before the boost cost may truncate the tail, as in the source. -/
def movePlayer (cosDeg sinDeg : ℚ → ℚ) (st : GameState) (p : Player) : Player :=
  if !p.alive || p.segments.isEmpty then p
  else
    let headPos := (p.segments.headD ⟨⟨0, 0⟩⟩).position
    let speedMultiplier : ℚ := if p.boosting then 6 else 3
    let p1 := applyBoostCost st.tickRate p
    let dx := cosDeg p.angle * p.speed * speedMultiplier
    let dy := sinDeg p.angle * p.speed * speedMultiplier
    shiftBody
      ⟨wrapCoordinate (headPos.x + dx) st.worldWidth,
       wrapCoordinate (headPos.y + dy) st.worldHeight⟩ p1

/-! ### FoodEconomy -/

/-- The room's `spawnFood`: a food at `getRandomPosition()` (each axis a
draw in `[0,1)` scaled by the world dimension), of value 5 when the value
draw falls below 5 percent and 1 otherwise. -/
def spawnFood (st : GameState) (d : SpawnDraw) : GameState × List GameEvent :=
  let pos : Vector2 := ⟨d.rx * st.worldWidth, d.ry * st.worldHeight⟩
  let value : ℕ := if d.rv < 1 / 20 then 5 else 1
  (setFood st ⟨d.fid, pos, value⟩, [GameEvent.foodSpawned d.fid pos value])

/-- The food top-up at the end of `gameLoop`: one `spawnFood()` call when
the live food count is below `maxFoods`, none otherwise. -/
def topUpFood (st : GameState) (d : SpawnDraw) : GameState × List GameEvent :=
  if st.foods.length < st.maxFoods then spawnFood st d else (st, [])

/-- One iteration of the `spawnFoodFromDeadPlayer` loop: a value-1 food at
a uniformly drawn segment of the dead body, jittered by `±20` on each
axis. -/
def dropFood (p : Player) (d : DropDraw) : Food :=
  let segmentIndex := jsFloorNat (d.ri * p.segments.length)
  let seg := p.segments.getD segmentIndex ⟨⟨0, 0⟩⟩
  ⟨d.fid, ⟨seg.position.x + (d.jx * 40 - 20), seg.position.y + (d.jy * 40 - 20)⟩, 1⟩

/-- The room's `spawnFoodFromDeadPlayer`: `min(⌊segments / 3⌋, 20)` drops.
The source interleaves each `set` with its broadcast; the final state and
the event list are stated directly, which agrees with the loop because a
drop reads only the dead body, never the food map. -/
def spawnFoodFromDeadPlayer (st : GameState) (p : Player) (draws : ℕ → DropDraw) :
    GameState × List GameEvent :=
  let foodPerSegment := min (p.segments.length / 3) 20
  let drops := (List.range foodPerSegment).map (fun i => dropFood p (draws i))
  (drops.foldl setFood st,
   drops.map (fun f => GameEvent.foodSpawned f.id f.position f.value))

/-- The `eatFood` message handler: silently drop the intent when the
sender is missing or dead, the food id is unknown, or the head is farther
than 250 units from the food; otherwise add the value to the score, append
3 tail segments for value above 1 (else 1), broadcast the consumption,
delete the food and spawn one replacement. -/
def handleEatFood (st : GameState) (sid fid : String) (d : SpawnDraw) :
    GameState × List GameEvent :=
  match findPlayer st sid with
  | none => (st, [])
  | some p =>
    if !p.alive then (st, [])
    else
      match findFood st fid with
      | none => (st, [])
      | some food =>
        if dist2 p.head food.position ≤ 250 ^ 2 then
          let segmentsToAdd := if 1 < food.value then 3 else 1
          let p2 := (List.range segmentsToAdd).foldl (fun q _ => q.addSegment)
            { p with score := p.score + food.value }
          let st2 := deleteFood (setPlayer st p2) fid
          let (st3, evs) := spawnFood st2 d
          (st3, GameEvent.foodConsumed fid p.id food.value :: evs)
        else (st, [])

/-! ### CollisionDetector -/

/-- Whether some body segment of `other` from index 1 on lies within
`headRadius(8) + segmentRadius(6) = 14` units of the given head.  The
source scans the segments in order and acts on the first one found; which
segment hit does not affect the resulting mutation, only whether one
exists. -/
def segmentHit (head : Vector2) (other : Player) : Bool :=
  (other.segments.drop 1).any (fun s => decide (dist2 head s.position < 14 ^ 2))

/-- One iteration of the `forEach` in `checkPlayerCollisions`, folding
over `(state, events, kills so far)`.  The `return` in the source exits
only the callback for the current other player, so the fold continues
with the remaining players afterwards.  The victim record `v` is the one
captured at entry: the loop writes only its alive flag, which it never
reads back. -/
def collideWithOther (v : Player) (head : Vector2) (draws : ℕ → ℕ → DropDraw)
    (acc : GameState × List GameEvent × ℕ) (other : Player) :
    GameState × List GameEvent × ℕ :=
  let (st, evs, k) := acc
  if other.id == v.id || !other.alive then acc
  else if v.invulnerable then acc
  else if segmentHit head other then
    let st1 := setPlayer st (killPlayer v)
    let other2 := { other with score := other.score + v.score / 2,
                               kills := other.kills + 1 }
    let st2 := setPlayer st1 other2
    let (st3, dropEvs) := spawnFoodFromDeadPlayer st2 v (draws k)
    (st3,
     evs ++ GameEvent.playerDied v.id :: GameEvent.playerKilled v.id other.id
       :: dropEvs,
     k + 1)
  else acc

/-- The world-boundary test of `checkPlayerCollisions`: strictly outside
`[0, width] × [0, height]`. -/
def boundaryOut (w h : ℚ) (pos : Vector2) : Bool :=
  decide (pos.x < 0) || decide (w < pos.x) ||
  decide (pos.y < 0) || decide (h < pos.y)

/-- The room's `checkPlayerCollisions(player)`: a no-op for a dead player
or an empty body; otherwise the fold over every player in the map followed
by the boundary branch, which kills the player again (broadcasting both
the `killPlayer` message and a second death message with a null killer)
when the head lies outside the world and the boundary mode is on. -/
def checkPlayerCollisions (st : GameState) (v : Player) (draws : ℕ → ℕ → DropDraw)
    (bdraws : ℕ → DropDraw) : GameState × List GameEvent :=
  if !v.alive then (st, [])
  else
    match v.segments with
    | [] => (st, [])
    | hseg :: _ =>
      let head := hseg.position
      let folded := st.players.foldl (collideWithOther v head draws) (st, [], 0)
      let st1 := folded.1
      let evs1 := folded.2.1
      if st.worldBoundaryCollisions && boundaryOut st.worldWidth st.worldHeight head then
        let st2 := setPlayer st1 (killPlayer v)
        let (st3, dropEvs) := spawnFoodFromDeadPlayer st2 v bdraws
        (st3,
         evs1 ++ GameEvent.playerDied v.id :: GameEvent.playerDiedAtBoundary v.id
           :: dropEvs)
      else (st1, evs1)

/-! ### LifecycleManager intents -/

/-- The `playerDied` message handler: a silent no-op for a missing or dead
sender; otherwise kill the sender and broadcast it, then, when a killer
session id is supplied and names a player in the map, transfer
`⌊victim.score / 2⌋` score and one kill to it and broadcast the kill, and
finally drop food from the dead body. -/
def handlePlayerDied (st : GameState) (sid : String) (killerSessionId : Option String)
    (draws : ℕ → DropDraw) : GameState × List GameEvent :=
  match findPlayer st sid with
  | none => (st, [])
  | some p =>
    if !p.alive then (st, [])
    else
      let st1 := setPlayer st (killPlayer p)
      let killerPart : GameState × List GameEvent :=
        match killerSessionId with
        | none => (st1, [])
        | some kid =>
          match findPlayer st1 kid with
          | none => (st1, [])
          | some killer =>
            (setPlayer st1 { killer with score := killer.score + p.score / 2,
                                          kills := killer.kills + 1 },
             [GameEvent.playerKilled p.id kid])
      let (st3, dropEvs) := spawnFoodFromDeadPlayer killerPart.1 p draws
      (st3, GameEvent.playerDied p.id :: killerPart.2 ++ dropEvs)

/-! ### Lemmas on the JavaScript numerics -/

theorem qfloor_eq (q : ℚ) : qfloor q = ⌊q⌋ := (Rat.floor_def).symm

theorem qceil_eq (q : ℚ) : qceil q = ⌈q⌉ := by
  rw [qceil, qfloor_eq, Int.floor_neg, neg_neg]

theorem jsTrunc_eq (q : ℚ) : jsTrunc q = if 0 ≤ q then ⌊q⌋ else ⌈q⌉ := by
  rw [jsTrunc, qfloor_eq, qceil_eq]

/-- For a non-negative dividend, `jsMod` is the remainder of floored
division and lies in `[0, m)`. -/
theorem jsMod_bounds_of_nonneg {v m : ℚ} (hv : 0 ≤ v) (hm : 0 < m) :
    0 ≤ jsMod v m ∧ jsMod v m < m := by
  have hq : (0 : ℚ) ≤ v / m := div_nonneg hv hm.le
  have hrw : jsMod v m = m * Int.fract (v / m) := by
    rw [jsMod, jsTrunc_eq, if_pos hq, Int.fract]
    field_simp
  constructor
  · rw [hrw]
    exact mul_nonneg hm.le (Int.fract_nonneg _)
  · rw [hrw]
    calc m * Int.fract (v / m) < m * 1 :=
      (mul_lt_mul_left hm).mpr (Int.fract_lt_one _)
    _ = m := mul_one m

/-- For a negative dividend and positive divisor, `jsMod` lies in
`(-m, 0]`, and vanishes exactly on integer multiples of `m`. -/
theorem jsMod_bounds_of_neg {v m : ℚ} (hv : v < 0) (hm : 0 < m) :
    -m < jsMod v m ∧ jsMod v m ≤ 0 ∧
      (jsMod v m = 0 ↔ ∃ k : ℤ, v = k * m) := by
  have hq : ¬ (0 : ℚ) ≤ v / m := by
    rw [not_le]
    exact div_neg_of_neg_of_pos hv hm
  have hrw : jsMod v m = v - m * ⌈v / m⌉ := by
    rw [jsMod, jsTrunc_eq, if_neg hq]
  have hmv : m * (v / m) = v := by field_simp
  refine ⟨?_, ?_, ?_, ?_⟩
  · have h1 : (⌈v / m⌉ : ℚ) < v / m + 1 := Int.ceil_lt_add_one _
    have h2 : m * (⌈v / m⌉ : ℚ) < m * (v / m + 1) := (mul_lt_mul_left hm).mpr h1
    rw [mul_add, hmv, mul_one] at h2
    rw [hrw]
    linarith
  · have h1 : v / m ≤ (⌈v / m⌉ : ℚ) := Int.le_ceil _
    have h2 : m * (v / m) ≤ m * (⌈v / m⌉ : ℚ) := (mul_le_mul_left hm).mpr h1
    rw [hmv] at h2
    rw [hrw]
    linarith
  · intro h0
    refine ⟨⌈v / m⌉, ?_⟩
    rw [hrw] at h0
    linarith [sub_eq_zero.mp h0]
  · rintro ⟨k, rfl⟩
    have hk : (k : ℚ) * m / m = (k : ℚ) := by field_simp
    rw [hrw, hk, Int.ceil_intCast]
    ring

/-- Claim C2 fails at the boundary case it singles out: an input of
exactly `-dimension` wraps to `dimension` itself, outside
`[0, dimension)`. -/
theorem wrapCoordinate_neg_boundary_cex :
    wrapCoordinate (-1000) 1000 = 1000 ∧
      ¬ (0 ≤ wrapCoordinate (-1000) 1000 ∧ wrapCoordinate (-1000) 1000 < 1000) := by
  have h : wrapCoordinate (-1000) 1000 = 1000 := by
    norm_num [wrapCoordinate, jsMod, jsTrunc, qfloor, qceil]
  exact ⟨h, by rw [h]; norm_num⟩

/-- Claim C2 (amended): for every input coordinate and positive dimension
the wrapped coordinate lies in the closed interval `[0, dimension]`, and
it equals `dimension` (escaping the half-open `[0, dimension)` of the
claim) exactly when the input is a negative integer multiple of the
dimension; every other input, including 0 and inputs at or beyond the
boundary, lands in `[0, dimension)`. -/
theorem wrapCoordinate_range_amended (v m : ℚ) (hm : 0 < m) :
    0 ≤ wrapCoordinate v m ∧ wrapCoordinate v m ≤ m ∧
      (wrapCoordinate v m = m ↔ v < 0 ∧ ∃ k : ℤ, v = k * m) := by
  by_cases hv : v < 0
  · obtain ⟨h1, h2, h3⟩ := jsMod_bounds_of_neg hv hm
    rw [wrapCoordinate, if_pos hv]
    refine ⟨by linarith, by linarith, ?_⟩
    constructor
    · intro h
      exact ⟨hv, h3.mp (by linarith)⟩
    · rintro ⟨-, hk⟩
      rw [h3.mpr hk]
      ring
  · push_neg at hv
    rw [wrapCoordinate, if_neg (not_lt.mpr hv)]
    by_cases hge : m ≤ v
    · obtain ⟨h1, h2⟩ := jsMod_bounds_of_nonneg hv hm
      rw [if_pos hge]
      refine ⟨h1, h2.le, ?_⟩
      constructor
      · intro h
        exact absurd h (ne_of_lt h2)
      · rintro ⟨hneg, -⟩
        exact absurd hneg (not_lt.mpr hv)
    · push_neg at hge
      rw [if_neg (not_le.mpr hge)]
      refine ⟨hv, hge.le, ?_⟩
      constructor
      · intro h
        exact absurd h (ne_of_lt hge)
      · rintro ⟨hneg, -⟩
        exact absurd hneg (not_lt.mpr hv)

/-- Witness for the amended claim C2 at `v = -3`, `m = 2`. -/
theorem wrapCoordinate_range_amended_witness :
    0 ≤ wrapCoordinate (-3) 2 ∧ wrapCoordinate (-3) 2 ≤ 2 ∧
      (wrapCoordinate (-3) 2 = 2 ↔ (-3 : ℚ) < 0 ∧ ∃ k : ℤ, (-3 : ℚ) = k * 2) :=
  wrapCoordinate_range_amended (-3) 2 (by norm_num)

/-! ### Lemmas on the state containers -/

theorem wrapCoordinate_mem {v m : ℚ} (hm : 0 < m) :
    0 ≤ wrapCoordinate v m ∧ wrapCoordinate v m ≤ m := by
  by_cases hv : v < 0
  · obtain ⟨h1, h2, -⟩ := jsMod_bounds_of_neg hv hm
    rw [wrapCoordinate, if_pos hv]
    exact ⟨by linarith, by linarith⟩
  · push_neg at hv
    rw [wrapCoordinate, if_neg (not_lt.mpr hv)]
    by_cases hge : m ≤ v
    · obtain ⟨h1, h2⟩ := jsMod_bounds_of_nonneg hv hm
      rw [if_pos hge]
      exact ⟨h1, h2.le⟩
    · rw [if_neg hge]
      exact ⟨hv, (not_le.mp hge).le⟩

theorem setPlayer_foods (st : GameState) (p : Player) :
    (setPlayer st p).foods = st.foods := rfl

theorem setFood_players (st : GameState) (f : Food) :
    (setFood st f).players = st.players := by
  rw [setFood]; split <;> rfl

theorem setFood_dims (st : GameState) (f : Food) :
    (setFood st f).worldWidth = st.worldWidth ∧
      (setFood st f).worldHeight = st.worldHeight ∧
      (setFood st f).maxFoods = st.maxFoods := by
  rw [setFood]; split <;> exact ⟨rfl, rfl, rfl⟩

theorem foldl_setFood_players (fs : List Food) (st : GameState) :
    (fs.foldl setFood st).players = st.players := by
  induction fs generalizing st with
  | nil => rfl
  | cons f fs ih => rw [List.foldl_cons, ih, setFood_players]

theorem spawnFoodFromDeadPlayer_players (st : GameState) (p : Player)
    (draws : ℕ → DropDraw) :
    (spawnFoodFromDeadPlayer st p draws).1.players = st.players := by
  rw [spawnFoodFromDeadPlayer]
  exact foldl_setFood_players _ _

/-- How many events of the list satisfy the predicate. -/
def countP (evs : List GameEvent) (f : GameEvent → Bool) : ℕ :=
  (evs.filter f).length

/-- Recognizes the `playerDied` broadcast of `killPlayer` for a given
victim. -/
def isDeathOf (pid : String) : GameEvent → Bool :=
  fun e => e == GameEvent.playerDied pid

/-- Recognizes a `foodSpawned` broadcast. -/
def isFoodSpawn : GameEvent → Bool
  | .foodSpawned _ _ _ => true
  | _ => false

theorem spawnFoodFromDeadPlayer_events (st : GameState) (p : Player)
    (draws : ℕ → DropDraw) :
    countP (spawnFoodFromDeadPlayer st p draws).2 isFoodSpawn =
        min (p.segments.length / 3) 20 ∧
      ∀ pid, countP (spawnFoodFromDeadPlayer st p draws).2 (isDeathOf pid) = 0 := by
  rw [spawnFoodFromDeadPlayer]
  constructor
  · simp [countP, List.filter_map, isFoodSpawn, Function.comp_def]
  · intro pid
    simp [countP, List.filter_map, isDeathOf, Function.comp_def]

/-- The list-level content of `findPlayer` after `setPlayer`: when some
entry carries the written id, the lookup of that id finds the written
record. -/
theorem find_map_set_self (l : List Player) (p : Player)
    (h : ∃ q ∈ l, q.id = p.id) :
    (l.map (fun q => if q.id == p.id then p else q)).find?
        (fun q => q.id == p.id) = some p := by
  induction l with
  | nil => simp at h
  | cons a l ih =>
    simp only [List.map_cons]
    by_cases ha : a.id = p.id
    · rw [if_pos (by simpa using ha)]
      exact List.find?_cons_of_pos _ (by simp)
    · rw [if_neg (by simpa using ha), List.find?_cons_of_neg _ (by simpa using ha)]
      apply ih
      obtain ⟨q, hq, hqid⟩ := h
      rcases List.mem_cons.mp hq with rfl | hmem
      · exact absurd hqid ha
      · exact ⟨q, hmem, hqid⟩

/-- Lookup of a different id is unaffected by `setPlayer`. -/
theorem find_map_set_ne (l : List Player) (p : Player) (sid : String)
    (hne : p.id ≠ sid) :
    (l.map (fun q => if q.id == p.id then p else q)).find?
        (fun q => q.id == sid) = l.find? (fun q => q.id == sid) := by
  induction l with
  | nil => rfl
  | cons a l ih =>
    simp only [List.map_cons]
    by_cases ha : a.id = p.id
    · rw [if_pos (by simpa using ha),
        List.find?_cons_of_neg _ (by simpa using hne),
        List.find?_cons_of_neg _ (by simp only [beq_iff_eq, ha]; exact hne)]
      exact ih
    · rw [if_neg (by simpa using ha)]
      cases hsd : (a.id == sid) with
      | true => simp [List.find?_cons, hsd]
      | false =>
        simp only [List.find?_cons, hsd]
        exact ih

theorem findPlayer_setPlayer_self (st : GameState) (p : Player)
    (h : ∃ q ∈ st.players, q.id = p.id) :
    findPlayer (setPlayer st p) p.id = some p :=
  find_map_set_self st.players p h

theorem findPlayer_setPlayer_ne (st : GameState) (p : Player) (sid : String)
    (hne : p.id ≠ sid) :
    findPlayer (setPlayer st p) sid = findPlayer st sid :=
  find_map_set_ne st.players p sid hne

theorem findPlayer_of_players_eq {s1 s2 : GameState} (h : s1.players = s2.players)
    (sid : String) : findPlayer s1 sid = findPlayer s2 sid := by
  rw [findPlayer, findPlayer, h]

/-- A successful lookup pins the id of the record found and its
membership. -/
theorem findPlayer_eq_some {st : GameState} {sid : String} {p : Player}
    (h : findPlayer st sid = some p) : p ∈ st.players ∧ p.id = sid := by
  refine ⟨List.mem_of_find?_eq_some h, ?_⟩
  have := List.find?_some h
  simpa using this

/-! ### Claim C10 — what death and respawn leave untouched -/

/-- Claim C10: the respawn transition writes only the alive flag, score,
kills, segment list and invulnerable flag; the heading angle, boosting
flag and boost accumulator (as well as id, name, speed and skin) keep the
values they had at the moment of death, and `killPlayer` itself writes
nothing but the alive flag — so a player killed while boosting respawns
with boosting still set and the old heading. -/
theorem respawn_and_kill_frame (p : Player) (spawn : Vector2) :
    (killPlayer p).angle = p.angle ∧ (killPlayer p).boosting = p.boosting ∧
    (killPlayer p).boostTime = p.boostTime ∧ (killPlayer p).score = p.score ∧
    (killPlayer p).kills = p.kills ∧ (killPlayer p).segments = p.segments ∧
    (killPlayer p).invulnerable = p.invulnerable ∧
    (killPlayer p).speed = p.speed ∧ (killPlayer p).id = p.id ∧
    (killPlayer p).name = p.name ∧ (killPlayer p).skinId = p.skinId ∧
    (killPlayer p).alive = false ∧
    (respawnPlayer p spawn).angle = p.angle ∧
    (respawnPlayer p spawn).boosting = p.boosting ∧
    (respawnPlayer p spawn).boostTime = p.boostTime ∧
    (respawnPlayer p spawn).speed = p.speed ∧
    (respawnPlayer p spawn).id = p.id ∧
    (respawnPlayer p spawn).name = p.name ∧
    (respawnPlayer p spawn).skinId = p.skinId ∧
    (respawnPlayer (killPlayer p) spawn).boosting = p.boosting ∧
    (respawnPlayer (killPlayer p) spawn).angle = p.angle ∧
    (respawnPlayer (killPlayer p) spawn).boostTime = p.boostTime := by
  and_intros <;> rfl

/-! ### Claim C3 — the respawn handler has no Dead-state guard -/

/-- A living player used to refute claim C3. -/
def c3Player : Player :=
  { id := "a", name := "A", segments := [⟨⟨10, 10⟩⟩], angle := 0, speed := 3,
    boosting := false, boostTime := 0, score := 7, kills := 2, alive := true,
    invulnerable := false, skinId := 0 }

/-- The room state holding only `c3Player`. -/
def c3State : GameState :=
  { players := [c3Player], foods := [], worldWidth := 1000, worldHeight := 1000,
    maxFoods := 50, tickRate := 16, worldBoundaryCollisions := true }

/-- Claim C3 fails: the sender of the respawn intent is alive with score 7,
yet handling the intent zeroes the score and grants invulnerability
instead of leaving the state unchanged. -/
theorem handleRespawn_alive_cex :
    (findPlayer c3State "a").map Player.alive = some true ∧
    (findPlayer c3State "a").map Player.score = some 7 ∧
    (findPlayer (handleRespawn c3State "a" ⟨100, 100⟩) "a").map Player.score =
      some 0 ∧
    (findPlayer (handleRespawn c3State "a" ⟨100, 100⟩) "a").map
      Player.invulnerable = some true := by
  norm_num [c3State, c3Player, handleRespawn, findPlayer, setPlayer,
    respawnPlayer, List.find?]

/-- Claim C3 (amended): the respawn handler carries no guard on the alive
flag: every player found under the sender id — alive or dead — is reset to
Alive + Invulnerable with a fresh 5-segment body and zeroed score and
kills; only a missing sender leaves the state unchanged. -/
theorem handleRespawn_resets_any_player (st : GameState) (sid : String)
    (spawn : Vector2) :
    (findPlayer st sid = none → handleRespawn st sid spawn = st) ∧
    (∀ p, findPlayer st sid = some p →
      findPlayer (handleRespawn st sid spawn) sid =
          some (respawnPlayer p spawn) ∧
        (respawnPlayer p spawn).alive = true ∧
        (respawnPlayer p spawn).invulnerable = true ∧
        (respawnPlayer p spawn).score = 0 ∧
        (respawnPlayer p spawn).kills = 0 ∧
        (respawnPlayer p spawn).segments.length = 5) := by
  constructor
  · intro h
    rw [handleRespawn, h]
  · intro p hp
    obtain ⟨hmem, hid⟩ := findPlayer_eq_some hp
    rw [handleRespawn, hp]
    refine ⟨?_, rfl, rfl, rfl, rfl,
      by rw [respawnPlayer]; simp only [List.length_map, List.length_range]⟩
    have : (respawnPlayer p spawn).id = sid := hid
    rw [← this]
    exact findPlayer_setPlayer_self st _ ⟨p, hmem, hid.trans this.symm⟩

/-! ### Lemmas on the movement step -/

/-- For a living player with a body, `movePlayer` is the boost cost
followed by the body shift onto the wrapped new head position. -/
theorem movePlayer_alive (c s : ℚ → ℚ) (st : GameState) (p : Player)
    (ha : p.alive = true) (hne : p.segments ≠ []) :
    movePlayer c s st p =
      shiftBody
        ⟨wrapCoordinate ((p.segments.headD ⟨⟨0, 0⟩⟩).position.x +
            c p.angle * p.speed * (if p.boosting then (6 : ℚ) else 3))
          st.worldWidth,
         wrapCoordinate ((p.segments.headD ⟨⟨0, 0⟩⟩).position.y +
            s p.angle * p.speed * (if p.boosting then (6 : ℚ) else 3))
          st.worldHeight⟩
        (applyBoostCost st.tickRate p) := by
  rw [movePlayer, if_neg]
  simp [ha, hne]

/-- The boost cost either keeps the body or truncates its tail. -/
theorem applyBoostCost_segments (t : ℚ) (p : Player) :
    (applyBoostCost t p).segments = p.segments ∨
      (applyBoostCost t p).segments = p.segments.dropLast := by
  rw [applyBoostCost]
  dsimp only
  repeat' split
  all_goals first
    | exact Or.inl rfl
    | exact Or.inr rfl

/-- Reading an entry of `dropLast` reads the same entry of the list. -/
theorem getD_dropLast {α : Type} (l : List α) (i : ℕ) (d : α)
    (h : i < l.dropLast.length) : l.dropLast.getD i d = l.getD i d := by
  rw [List.getD_eq_getElem?_getD, List.getD_eq_getElem?_getD,
    List.getElem?_dropLast, if_pos (by simpa using h)]

/-! ### Claim C8 — the boundary-death branch is unreachable -/

/-- Claim C8: under the default configuration the movement step wraps both
head coordinates into `[0, dimension]`, so the strict boundary test
`x < 0 ∨ x > width ∨ y < 0 ∨ y > height` of `checkPlayerCollisions` is
false for every freshly moved head: a boundary death is never declared
for a player the game loop just moved. -/
theorem boundary_death_unreachable (c s : ℚ → ℚ) (st : GameState) (p : Player)
    (hW : 0 < st.worldWidth) (hH : 0 < st.worldHeight)
    (ha : p.alive = true) (hne : p.segments ≠ []) :
    boundaryOut st.worldWidth st.worldHeight (movePlayer c s st p).head = false ∧
      0 ≤ (movePlayer c s st p).head.x ∧
      (movePlayer c s st p).head.x ≤ st.worldWidth ∧
      0 ≤ (movePlayer c s st p).head.y ∧
      (movePlayer c s st p).head.y ≤ st.worldHeight := by
  rw [movePlayer_alive c s st p ha hne]
  obtain ⟨hx0, hx1⟩ := wrapCoordinate_mem
    (v := (p.segments.headD ⟨⟨0, 0⟩⟩).position.x +
      c p.angle * p.speed * (if p.boosting then (6 : ℚ) else 3)) hW
  obtain ⟨hy0, hy1⟩ := wrapCoordinate_mem
    (v := (p.segments.headD ⟨⟨0, 0⟩⟩).position.y +
      s p.angle * p.speed * (if p.boosting then (6 : ℚ) else 3)) hH
  refine ⟨?_, hx0, hx1, hy0, hy1⟩
  rw [boundaryOut]
  simp only [Bool.or_eq_false_iff, decide_eq_false_iff_not, not_lt]
  exact ⟨⟨⟨hx0, hx1⟩, hy0⟩, hy1⟩

/-- A living player for the C8 witness. -/
def c8Player : Player :=
  { id := "p", name := "P", segments := [⟨⟨500, 500⟩⟩], angle := 0, speed := 3,
    boosting := false, boostTime := 0, score := 0, kills := 0, alive := true,
    invulnerable := false, skinId := 0 }

/-- A default-configuration state for the C8 witness. -/
def c8State : GameState :=
  { players := [c8Player], foods := [], worldWidth := 1000, worldHeight := 1000,
    maxFoods := 50, tickRate := 16, worldBoundaryCollisions := true }

/-- Witness for claim C8 at a concrete world and player. -/
theorem boundary_death_unreachable_witness :
    boundaryOut c8State.worldWidth c8State.worldHeight
        (movePlayer (fun _ => 1) (fun _ => 0) c8State c8Player).head = false ∧
      0 ≤ (movePlayer (fun _ => 1) (fun _ => 0) c8State c8Player).head.x ∧
      (movePlayer (fun _ => 1) (fun _ => 0) c8State c8Player).head.x ≤
        c8State.worldWidth ∧
      0 ≤ (movePlayer (fun _ => 1) (fun _ => 0) c8State c8Player).head.y ∧
      (movePlayer (fun _ => 1) (fun _ => 0) c8State c8Player).head.y ≤
        c8State.worldHeight :=
  boundary_death_unreachable (fun _ => 1) (fun _ => 0) c8State c8Player
    (by norm_num [c8State]) (by norm_num [c8State]) (by rfl)
    (by norm_num [c8Player])

/-! ### Claim C7 — follow-the-leader propagation -/

/-- Claim C7: after one movement step, each body segment of index `i ≥ 1`
holds exactly the position segment `i - 1` held before the step.  The
source updates from the tail to index 1 before writing the head, so every
read happens before the cell it reads is overwritten; on the list model
this holds whether or not the boost cost truncated the tail first. -/
theorem follow_the_leader (c s : ℚ → ℚ) (st : GameState) (p : Player)
    (ha : p.alive = true) (hne : p.segments ≠ []) (i : ℕ)
    (h1 : i + 1 < (movePlayer c s st p).segments.length) :
    (movePlayer c s st p).segments.getD (i + 1) ⟨⟨0, 0⟩⟩ =
      p.segments.getD i ⟨⟨0, 0⟩⟩ := by
  rw [movePlayer_alive c s st p ha hne] at h1 ⊢
  rw [shiftBody] at h1 ⊢
  simp only [List.getD_cons_succ]
  simp only [List.length_cons, Nat.add_lt_add_iff_right] at h1
  rcases applyBoostCost_segments st.tickRate p with hseg | hseg <;>
    rw [hseg] at h1 ⊢
  · exact getD_dropLast _ _ _ h1
  · rw [getD_dropLast _ _ _ h1]
    exact getD_dropLast _ _ _ (lt_of_lt_of_le h1
      (by simp only [List.length_dropLast]; omega))

/-- A living three-segment player for the C7 witness. -/
def c7Player : Player :=
  { id := "q", name := "Q", segments := [⟨⟨1, 2⟩⟩, ⟨⟨3, 4⟩⟩, ⟨⟨5, 6⟩⟩],
    angle := 0, speed := 3, boosting := false, boostTime := 0, score := 0,
    kills := 0, alive := true, invulnerable := false, skinId := 0 }

/-- A state for the C7 witness. -/
def c7State : GameState :=
  { players := [c7Player], foods := [], worldWidth := 1000, worldHeight := 1000,
    maxFoods := 50, tickRate := 16, worldBoundaryCollisions := true }

/-- Witness for claim C7: after one step the second segment holds the old
head position. -/
theorem follow_the_leader_witness :
    (movePlayer (fun _ => 1) (fun _ => 0) c7State c7Player).segments.getD
        (0 + 1) ⟨⟨0, 0⟩⟩ =
      c7Player.segments.getD 0 ⟨⟨0, 0⟩⟩ :=
  follow_the_leader (fun _ => 1) (fun _ => 0) c7State c7Player rfl
    (by simp [c7Player]) 0
    (by norm_num [movePlayer, applyBoostCost, shiftBody, c7Player, c7State])

/-! ### Claim C6 — the per-tick food top-up -/

/-- Appending under a fresh id: the map `set` extends the food list. -/
theorem setFood_fresh (st : GameState) (g : Food)
    (hfresh : ∀ f ∈ st.foods, f.id ≠ g.id) :
    setFood st g = { st with foods := st.foods ++ [g] } := by
  rw [setFood, if_neg]
  simp only [List.any_eq_true, beq_iff_eq, not_exists, not_and]
  exact hfresh

/-- Claim C6: the per-tick top-up spawns exactly one food item when the
live count is below `maxFoods` and none otherwise, so the top-up alone
never pushes the count past the target; the spawned item has value 5
exactly when the rare draw falls below 5 percent, and its position is the
uniform draw scaled into the world on each axis. -/
theorem topUpFood_spec (st : GameState) (d : SpawnDraw)
    (hfresh : ∀ f ∈ st.foods, f.id ≠ d.fid) :
    (st.foods.length < st.maxFoods →
      (topUpFood st d).1.foods.length = st.foods.length + 1 ∧
      (topUpFood st d).1.foods.length ≤ st.maxFoods ∧
      (topUpFood st d).2 =
        [GameEvent.foodSpawned d.fid ⟨d.rx * st.worldWidth, d.ry * st.worldHeight⟩
          (if d.rv < 1 / 20 then 5 else 1)] ∧
      ((if d.rv < 1 / 20 then (5 : ℕ) else 1) = 5 ↔ d.rv < 1 / 20)) ∧
    (¬ st.foods.length < st.maxFoods → topUpFood st d = (st, [])) ∧
    (0 < st.worldWidth → 0 ≤ d.rx → d.rx < 1 →
      0 ≤ d.rx * st.worldWidth ∧ d.rx * st.worldWidth < st.worldWidth) := by
  refine ⟨?_, ?_, ?_⟩
  · intro hlt
    rw [topUpFood, if_pos hlt, spawnFood]
    rw [setFood_fresh st _ (by simpa using hfresh)]
    refine ⟨by simp, by simp; omega, rfl, ?_⟩
    constructor
    · intro h
      by_contra hc
      rw [if_neg hc] at h
      exact absurd h (by norm_num)
    · intro h
      rw [if_pos h]
  · intro hge
    rw [topUpFood, if_neg hge]
  · intro hW hx0 hx1
    exact ⟨mul_nonneg hx0 hW.le, by
      calc d.rx * st.worldWidth < 1 * st.worldWidth :=
        (mul_lt_mul_right hW).mpr hx1
      _ = st.worldWidth := one_mul _⟩

/-- A below-target state for the C6 witness. -/
def c6State : GameState :=
  { players := [], foods := [⟨"f0", ⟨1, 1⟩, 1⟩], worldWidth := 1000,
    worldHeight := 1000, maxFoods := 2, tickRate := 16,
    worldBoundaryCollisions := true }

/-- The concrete spawn draw for the C6 witness. -/
def c6Draw : SpawnDraw := ⟨"f1", 1 / 4, 1 / 2, 1 / 100⟩

/-- Witness for claim C6 at a concrete below-target state. -/
theorem topUpFood_spec_witness :
    (c6State.foods.length < c6State.maxFoods →
      (topUpFood c6State c6Draw).1.foods.length = c6State.foods.length + 1 ∧
      (topUpFood c6State c6Draw).1.foods.length ≤ c6State.maxFoods ∧
      (topUpFood c6State c6Draw).2 =
        [GameEvent.foodSpawned c6Draw.fid
          ⟨c6Draw.rx * c6State.worldWidth, c6Draw.ry * c6State.worldHeight⟩
          (if c6Draw.rv < 1 / 20 then 5 else 1)] ∧
      ((if c6Draw.rv < 1 / 20 then (5 : ℕ) else 1) = 5 ↔ c6Draw.rv < 1 / 20)) ∧
    (¬ c6State.foods.length < c6State.maxFoods →
      topUpFood c6State c6Draw = (c6State, [])) ∧
    (0 < c6State.worldWidth → 0 ≤ c6Draw.rx → c6Draw.rx < 1 →
      0 ≤ c6Draw.rx * c6State.worldWidth ∧
        c6Draw.rx * c6State.worldWidth < c6State.worldWidth) :=
  topUpFood_spec c6State c6Draw
    (by intro f hf; simp only [c6State] at hf; simp at hf; simp [hf, c6Draw])

/-! ### Claim C5 — food consumption -/

/-- What one `addSegment` changes: one more segment, everything else
untouched. -/
theorem addSegment_frame (q : Player) :
    (q.addSegment).segments.length = q.segments.length + 1 ∧
      (q.addSegment).score = q.score ∧ (q.addSegment).id = q.id ∧
      (q.addSegment).alive = q.alive := by
  refine ⟨?_, rfl, rfl, rfl⟩
  rw [Player.addSegment]
  simp

/-- Folding `addSegment` `n` times appends `n` segments and fixes the
other fields. -/
theorem foldl_addSegment (n : ℕ) (q : Player) :
    ((List.range n).foldl (fun r _ => r.addSegment) q).segments.length =
        q.segments.length + n ∧
      ((List.range n).foldl (fun r _ => r.addSegment) q).score = q.score ∧
      ((List.range n).foldl (fun r _ => r.addSegment) q).id = q.id := by
  induction n with
  | zero => exact ⟨rfl, rfl, rfl⟩
  | succ n ih =>
    rw [List.range_succ, List.foldl_append, List.foldl_cons, List.foldl_nil]
    obtain ⟨h1, h2, h3⟩ := ih
    obtain ⟨g1, g2, g3, -⟩ := addSegment_frame ((List.range n).foldl
      (fun r _ => r.addSegment) q)
    refine ⟨?_, g2.trans h2, g3.trans h3⟩
    rw [g1, h1]
    omega

/-- Lookup of a fresh id appended to a list with no other carrier. -/
theorem find_append_fresh (l : List Food) (g : Food)
    (h : ∀ f ∈ l, f.id ≠ g.id) :
    (l ++ [g]).find? (fun f => f.id == g.id) = some g := by
  induction l with
  | nil => simp [List.find?]
  | cons a l ih =>
    rw [List.cons_append, List.find?_cons_of_neg _
      (by simpa using h a (List.mem_cons_self a l))]
    exact ih (fun f hf => h f (List.mem_cons_of_mem a hf))

/-- Claim C5: the `eatFood` intent is a silent no-op whenever the sender
is missing or dead, the food id is unknown, or the food is farther than
250 units from the head; otherwise the sender gains the food value in
score and 3 tail segments for value above 1 (else 1), the consumption is
broadcast, the food disappears and exactly one replacement food is
spawned. -/
theorem handleEatFood_spec (st : GameState) (sid fid : String) (d : SpawnDraw) :
    (findPlayer st sid = none → handleEatFood st sid fid d = (st, [])) ∧
    (∀ p, findPlayer st sid = some p → p.alive = false →
      handleEatFood st sid fid d = (st, [])) ∧
    (∀ p, findPlayer st sid = some p → p.alive = true →
      findFood st fid = none → handleEatFood st sid fid d = (st, [])) ∧
    (∀ p food, findPlayer st sid = some p → p.alive = true →
      findFood st fid = some food → ¬ dist2 p.head food.position ≤ 250 ^ 2 →
      handleEatFood st sid fid d = (st, [])) ∧
    (∀ p food, findPlayer st sid = some p → p.alive = true →
      findFood st fid = some food → dist2 p.head food.position ≤ 250 ^ 2 →
      (∀ f ∈ st.foods, f.id ≠ d.fid) → d.fid ≠ fid →
      (handleEatFood st sid fid d).2 =
          [GameEvent.foodConsumed fid p.id food.value,
           GameEvent.foodSpawned d.fid
             ⟨d.rx * st.worldWidth, d.ry * st.worldHeight⟩
             (if d.rv < 1 / 20 then 5 else 1)] ∧
        (findPlayer (handleEatFood st sid fid d).1 sid).map Player.score =
          some (p.score + food.value) ∧
        (findPlayer (handleEatFood st sid fid d).1 sid).map
            (fun q => q.segments.length) =
          some (p.segments.length + (if 1 < food.value then 3 else 1)) ∧
        findFood (handleEatFood st sid fid d).1 fid = none ∧
        findFood (handleEatFood st sid fid d).1 d.fid =
          some ⟨d.fid, ⟨d.rx * st.worldWidth, d.ry * st.worldHeight⟩,
            if d.rv < 1 / 20 then 5 else 1⟩) := by
  refine ⟨?_, ?_, ?_, ?_, ?_⟩
  · intro h
    rw [handleEatFood, h]
  · intro p hp hdead
    rw [handleEatFood, hp]
    simp [hdead]
  · intro p hp ha hfood
    rw [handleEatFood, hp]
    simp [ha, hfood]
  · intro p food hp ha hfood hdist
    rw [handleEatFood, hp]
    simp only [ha, Bool.not_true, Bool.false_eq_true, if_false, hfood]
    rw [if_neg hdist]
  · intro p food hp ha hfood hdist hfresh hne
    obtain ⟨hpmem, hpid⟩ := findPlayer_eq_some hp
    obtain ⟨hlen, hscore, hid⟩ := foldl_addSegment
      (if 1 < food.value then 3 else 1) { p with score := p.score + food.value }
    set p2 := (List.range (if 1 < food.value then 3 else 1)).foldl
      (fun r _ => r.addSegment) { p with score := p.score + food.value } with hp2
    set nf : Food := ⟨d.fid, ⟨d.rx * st.worldWidth, d.ry * st.worldHeight⟩,
      if d.rv < 1 / 20 then 5 else 1⟩ with hnf
    have hkey : handleEatFood st sid fid d =
        (setFood (deleteFood (setPlayer st p2) fid) nf,
         [GameEvent.foodConsumed fid p.id food.value,
          GameEvent.foodSpawned d.fid
            ⟨d.rx * st.worldWidth, d.ry * st.worldHeight⟩
            (if d.rv < 1 / 20 then 5 else 1)]) := by
      rw [handleEatFood, hp]
      dsimp only
      rw [if_neg (by simp [ha]), hfood]
      dsimp only
      rw [if_pos hdist]
      rfl
    have hp2id : p2.id = sid := by rw [hid]; exact hpid
    have hfreshdel : ∀ f ∈ (deleteFood (setPlayer st p2) fid).foods,
        f.id ≠ nf.id := by
      intro f hf
      simp only [deleteFood, setPlayer, List.mem_filter] at hf
      exact hfresh f hf.1
    have hplayers : (setFood (deleteFood (setPlayer st p2) fid) nf).players =
        (setPlayer st p2).players := by
      rw [setFood_players]; rfl
    rw [hkey]
    refine ⟨rfl, ?_, ?_, ?_, ?_⟩
    · rw [findPlayer_of_players_eq hplayers, ← hp2id,
        findPlayer_setPlayer_self st p2 ⟨p, hpmem, hpid.trans hp2id.symm⟩]
      simp [hscore]
    · rw [findPlayer_of_players_eq hplayers, ← hp2id,
        findPlayer_setPlayer_self st p2 ⟨p, hpmem, hpid.trans hp2id.symm⟩]
      simp [hlen]
    · rw [findFood, setFood_fresh _ _ hfreshdel, List.find?_append]
      have hleft : (deleteFood (setPlayer st p2) fid).foods.find?
          (fun f => f.id == fid) = none := by
        rw [List.find?_eq_none]
        intro f hf
        simp only [deleteFood, setPlayer, List.mem_filter] at hf
        simpa using hf.2
      rw [hleft]
      simpa using hne
    · rw [findFood, setFood_fresh _ _ hfreshdel]
      exact find_append_fresh _ _ hfreshdel

/-! ### Claim C9 — the self-reported death intent -/

theorem countP_append (a b : List GameEvent) (f : GameEvent → Bool) :
    countP (a ++ b) f = countP a f + countP b f := by
  simp [countP, List.filter_append]

theorem countP_cons_neg (e : GameEvent) (l : List GameEvent)
    (f : GameEvent → Bool) (h : f e = false) : countP (e :: l) f = countP l f := by
  simp [countP, List.filter_cons, h]

/-- Claim C9: a `playerDied` intent from a living player kills that
player, broadcasts the death first, and drops
`min(⌊segments / 3⌋, 20)` food items from the body; when the intent
names a killer session id that belongs to a player in the map, that
player receives `⌊victim.score / 2⌋` score and one kill and a
`playerKilled` event naming both parties is broadcast; the intent is a
no-op for a missing or already-dead sender. -/
theorem handlePlayerDied_spec (st : GameState) (sid : String)
    (kopt : Option String) (draws : ℕ → DropDraw) :
    (findPlayer st sid = none → handlePlayerDied st sid kopt draws = (st, [])) ∧
    (∀ p, findPlayer st sid = some p → p.alive = false →
      handlePlayerDied st sid kopt draws = (st, [])) ∧
    (∀ p, findPlayer st sid = some p → p.alive = true →
      (handlePlayerDied st sid kopt draws).2.head? =
          some (GameEvent.playerDied p.id) ∧
        countP (handlePlayerDied st sid kopt draws).2 isFoodSpawn =
          min (p.segments.length / 3) 20 ∧
        (findPlayer (handlePlayerDied st sid kopt draws).1 sid).map
          Player.alive = some false) ∧
    (∀ p kid killer, findPlayer st sid = some p → p.alive = true →
      kopt = some kid → kid ≠ sid → findPlayer st kid = some killer →
      findPlayer (handlePlayerDied st sid kopt draws).1 kid =
          some { killer with score := killer.score + p.score / 2,
                             kills := killer.kills + 1 } ∧
        GameEvent.playerKilled p.id kid ∈ (handlePlayerDied st sid kopt draws).2 ∧
        findPlayer (handlePlayerDied st sid kopt draws).1 sid =
          some (killPlayer p)) := by
  have hdrop2 : ∀ s2 p, countP (spawnFoodFromDeadPlayer s2 p draws).2 isFoodSpawn =
      min (p.segments.length / 3) 20 :=
    fun s2 p => (spawnFoodFromDeadPlayer_events s2 p draws).1
  refine ⟨?_, ?_, ?_, ?_⟩
  · intro h
    rw [handlePlayerDied, h]
  · intro p hp hdead
    rw [handlePlayerDied, hp]
    simp [hdead]
  · intro p hp ha
    obtain ⟨hpmem, hpid⟩ := findPlayer_eq_some hp
    have hv : findPlayer (setPlayer st (killPlayer p)) sid = some (killPlayer p) := by
      have : (killPlayer p).id = sid := hpid
      rw [← this]
      exact findPlayer_setPlayer_self st _ ⟨p, hpmem, hpid.trans this.symm⟩
    rw [handlePlayerDied, hp]
    dsimp only
    rw [if_neg (by simp [ha])]
    dsimp only
    rcases kopt with _ | kid
    · dsimp only
      refine ⟨rfl, ?_, ?_⟩
      · have hc : countP (GameEvent.playerDied p.id ::
            (spawnFoodFromDeadPlayer (setPlayer st (killPlayer p)) p draws).2)
            isFoodSpawn = min (p.segments.length / 3) 20 := by
          rw [countP_cons_neg _ _ _ rfl, hdrop2]
        exact hc
      · rw [findPlayer_of_players_eq (spawnFoodFromDeadPlayer_players _ _ _), hv]
        rfl
    · dsimp only
      cases hk : findPlayer (setPlayer st (killPlayer p)) kid with
      | none =>
        dsimp only
        refine ⟨rfl, ?_, ?_⟩
        · have hc : countP (GameEvent.playerDied p.id ::
              (spawnFoodFromDeadPlayer (setPlayer st (killPlayer p)) p draws).2)
              isFoodSpawn = min (p.segments.length / 3) 20 := by
            rw [countP_cons_neg _ _ _ rfl, hdrop2]
          exact hc
        · rw [findPlayer_of_players_eq (spawnFoodFromDeadPlayer_players _ _ _), hv]
          rfl
      | some killer =>
        dsimp only
        obtain ⟨hkmem, hkid⟩ := findPlayer_eq_some hk
        refine ⟨rfl, ?_, ?_⟩
        · have hc : countP (GameEvent.playerDied p.id ::
              GameEvent.playerKilled p.id kid ::
              (spawnFoodFromDeadPlayer (setPlayer (setPlayer st (killPlayer p))
                { killer with score := killer.score + p.score / 2,
                              kills := killer.kills + 1 }) p draws).2)
              isFoodSpawn = min (p.segments.length / 3) 20 := by
            rw [countP_cons_neg _ _ _ rfl, countP_cons_neg _ _ _ rfl, hdrop2]
          exact hc
        · rw [findPlayer_of_players_eq (spawnFoodFromDeadPlayer_players _ _ _)]
          by_cases hksid : killer.id = sid
          · have hkidsid : kid = sid := hkid.symm.trans hksid
            have hkiller : killer = killPlayer p := by
              have := hk
              rw [hkidsid, hv] at this
              exact (Option.some_inj.mp this).symm
            have hself : findPlayer (setPlayer (setPlayer st (killPlayer p))
                { killer with score := killer.score + p.score / 2,
                              kills := killer.kills + 1 }) sid =
                some { killer with score := killer.score + p.score / 2,
                                   kills := killer.kills + 1 } := by
              have hid2 : ({ killer with score := killer.score + p.score / 2, kills := killer.kills + 1 } : Player).id = sid := hksid
              rw [← hid2]
              exact findPlayer_setPlayer_self _ _ ⟨killer, hkmem, hksid.trans hid2.symm⟩
            rw [hself]
            have halive : killer.alive = false := by rw [hkiller]; rfl
            show some killer.alive = some false
            rw [halive]
          · have hne2 : ({ killer with score := killer.score + p.score / 2, kills := killer.kills + 1 } : Player).id ≠ sid := hksid
            rw [findPlayer_setPlayer_ne _ _ _ hne2, hv]
            rfl
  · intro p kid killer hp ha hkopt hkidsid hkiller
    subst hkopt
    obtain ⟨hpmem, hpid⟩ := findPlayer_eq_some hp
    have hv : findPlayer (setPlayer st (killPlayer p)) sid = some (killPlayer p) := by
      have : (killPlayer p).id = sid := hpid
      rw [← this]
      exact findPlayer_setPlayer_self st _ ⟨p, hpmem, hpid.trans this.symm⟩
    have hk1 : findPlayer (setPlayer st (killPlayer p)) kid = some killer := by
      rw [findPlayer_setPlayer_ne st (killPlayer p) kid
        (by simpa [killPlayer, hpid] using hkidsid.symm)]
      exact hkiller
    obtain ⟨hkmem, hkid⟩ := findPlayer_eq_some hk1
    rw [handlePlayerDied, hp]
    dsimp only
    rw [if_neg (by simp [ha])]
    dsimp only
    rw [hk1]
    dsimp only
    refine ⟨?_, ?_, ?_⟩
    · rw [findPlayer_of_players_eq (spawnFoodFromDeadPlayer_players _ _ _)]
      have hid2 : ({ killer with score := killer.score + p.score / 2, kills := killer.kills + 1 } : Player).id = kid := hkid
      rw [← hid2]
      exact findPlayer_setPlayer_self _ _ ⟨killer, hkmem, hkid.trans hid2.symm⟩
    · simp
    · rw [findPlayer_of_players_eq (spawnFoodFromDeadPlayer_players _ _ _)]
      have hne3 : ({ killer with score := killer.score + p.score / 2, kills := killer.kills + 1 } : Player).id ≠ sid :=
        fun h => hkidsid (hkid.symm.trans h)
      rw [findPlayer_setPlayer_ne _ _ _ hne3]
      exact hv

/-! ### Claim C1 — kill handling in `checkPlayerCollisions` -/

theorem countP_cons_pos (e : GameEvent) (l : List GameEvent)
    (f : GameEvent → Bool) (h : f e = true) :
    countP (e :: l) f = countP l f + 1 := by
  simp [countP, List.filter_cons, h]

/-- The condition under which the fold body of `checkPlayerCollisions`
acts for one other player: a different id, the other alive, the victim
not invulnerable, and some far-enough-indexed segment within range. -/
def triggers (v : Player) (head : Vector2) (other : Player) : Prop :=
  other.id ≠ v.id ∧ other.alive = true ∧ v.invulnerable = false ∧
    segmentHit head other = true

instance (v : Player) (head : Vector2) (other : Player) :
    Decidable (triggers v head other) := by
  rw [triggers]; infer_instance

/-- A non-triggering other player leaves the fold state untouched. -/
theorem collideWithOther_skip (v : Player) (head : Vector2)
    (draws : ℕ → ℕ → DropDraw) (acc : GameState × List GameEvent × ℕ)
    (other : Player) (h : ¬ triggers v head other) :
    collideWithOther v head draws acc other = acc := by
  obtain ⟨st, evs, k⟩ := acc
  rw [collideWithOther]
  dsimp only
  by_cases h1 : (other.id == v.id || !other.alive) = true
  · rw [if_pos h1]
  · rw [if_neg h1]
    simp only [Bool.or_eq_true, beq_iff_eq, Bool.not_eq_true', not_or] at h1
    obtain ⟨h1a, h1b⟩ := h1
    have halive : other.alive = true := by
      revert h1b; cases other.alive <;> simp
    by_cases h2 : v.invulnerable = true
    · rw [if_pos h2]
    · rw [if_neg h2]
      have hinv : v.invulnerable = false := by
        revert h2; cases v.invulnerable <;> simp
      have hno : ¬ segmentHit head other = true :=
        fun hs => h ⟨h1a, halive, hinv, hs⟩
      rw [if_neg hno]

/-- A triggering other player runs the kill block once: the victim is
written dead, the other player is credited, the death and kill are
broadcast and the body drop is spawned; the kill counter advances. -/
theorem collideWithOther_hit (v : Player) (head : Vector2)
    (draws : ℕ → ℕ → DropDraw) (st : GameState) (evs : List GameEvent)
    (k : ℕ) (other : Player) (h : triggers v head other) :
    collideWithOther v head draws (st, evs, k) other =
      ((spawnFoodFromDeadPlayer
          (setPlayer (setPlayer st (killPlayer v))
            { other with score := other.score + v.score / 2,
                         kills := other.kills + 1 }) v (draws k)).1,
       evs ++ GameEvent.playerDied v.id ::
         GameEvent.playerKilled v.id other.id ::
         (spawnFoodFromDeadPlayer
           (setPlayer (setPlayer st (killPlayer v))
             { other with score := other.score + v.score / 2,
                          kills := other.kills + 1 }) v (draws k)).2,
       k + 1) := by
  obtain ⟨hne, halive, hinv, hhit⟩ := h
  rw [collideWithOther]
  dsimp only
  rw [if_neg (by simp [hne, halive]), if_neg (by simp [hinv]), if_pos hhit]

/-- Folding over a run of non-triggering players is the identity. -/
theorem foldl_collide_skip (v : Player) (head : Vector2)
    (draws : ℕ → ℕ → DropDraw) (l : List Player)
    (acc : GameState × List GameEvent × ℕ)
    (h : ∀ x ∈ l, ¬ triggers v head x) :
    l.foldl (collideWithOther v head draws) acc = acc := by
  induction l generalizing acc with
  | nil => rfl
  | cons a l ih =>
    rw [List.foldl_cons,
      collideWithOther_skip v head draws acc a (h a (List.mem_cons_self a l))]
    exact ih acc (fun x hx => h x (List.mem_cons_of_mem a hx))

/-- A player distinct in id from the written one stays in the map. -/
theorem mem_setPlayer_of_ne {st : GameState} {p q : Player}
    (hq : q ∈ st.players) (hne : q.id ≠ p.id) : q ∈ (setPlayer st p).players := by
  rw [setPlayer]
  have hfix : (fun r => if r.id == p.id then p else r) q = q := by simp [hne]
  exact hfix ▸ List.mem_map_of_mem _ hq

/-- Claim C1 (amended): when exactly one other living player has a body
segment (index ≥ 1) within 14 units of the living, non-invulnerable
victim's head, the kill handling runs exactly once: one death event for
the victim, the killer's score up by `⌊victim.score / 2⌋` and kill count
up by one, one `playerKilled` broadcast, and
`min(⌊segmentCount / 3⌋, 20)` food items dropped.  The amendment: the
`return` in the source exits only the current callback of the `forEach`,
so checking stops at the first colliding segment within each other
player's body but continues across the remaining players — with several
simultaneous colliding players the block runs once per such player (see
the counterexample), not once per tick. -/
theorem first_collision_kill_amended (st : GameState) (v w : Player)
    (hseg : SnakeSegment) (tl : List SnakeSegment)
    (draws : ℕ → ℕ → DropDraw) (bdraws : ℕ → DropDraw) (l1 l2 : List Player)
    (hsplit : st.players = l1 ++ w :: l2)
    (hl1 : ∀ x ∈ l1, ¬ triggers v hseg.position x)
    (hl2 : ∀ x ∈ l2, ¬ triggers v hseg.position x)
    (hw : triggers v hseg.position w)
    (ha : v.alive = true) (hsegs : v.segments = hseg :: tl)
    (hvmem : v ∈ st.players)
    (hbd : (st.worldBoundaryCollisions &&
      boundaryOut st.worldWidth st.worldHeight hseg.position) = false) :
    countP (checkPlayerCollisions st v draws bdraws).2 (isDeathOf v.id) = 1 ∧
      GameEvent.playerKilled v.id w.id ∈
        (checkPlayerCollisions st v draws bdraws).2 ∧
      countP (checkPlayerCollisions st v draws bdraws).2 isFoodSpawn =
        min (v.segments.length / 3) 20 ∧
      findPlayer (checkPlayerCollisions st v draws bdraws).1 w.id =
        some { w with score := w.score + v.score / 2,
                      kills := w.kills + 1 } ∧
      findPlayer (checkPlayerCollisions st v draws bdraws).1 v.id =
        some (killPlayer v) := by
  obtain ⟨hwne, hwalive, hinv, hwhit⟩ := hw
  have hwmem : w ∈ st.players := by
    rw [hsplit]
    exact List.mem_append_right l1 (List.mem_cons_self w l2)
  have hkey : checkPlayerCollisions st v draws bdraws =
      ((spawnFoodFromDeadPlayer
          (setPlayer (setPlayer st (killPlayer v))
            { w with score := w.score + v.score / 2, kills := w.kills + 1 })
          v (draws 0)).1,
       GameEvent.playerDied v.id :: GameEvent.playerKilled v.id w.id ::
         (spawnFoodFromDeadPlayer
           (setPlayer (setPlayer st (killPlayer v))
             { w with score := w.score + v.score / 2, kills := w.kills + 1 })
           v (draws 0)).2) := by
    rw [checkPlayerCollisions, if_neg (by simp [ha]), hsegs]
    dsimp only
    rw [hsplit, List.foldl_append,
      foldl_collide_skip v hseg.position draws l1 _ hl1, List.foldl_cons,
      collideWithOther_hit v hseg.position draws st [] 0 w
        ⟨hwne, hwalive, hinv, hwhit⟩,
      foldl_collide_skip v hseg.position draws l2 _ hl2]
    dsimp only
    rw [if_neg (by rw [hbd]; exact Bool.false_ne_true)]
    rw [List.nil_append]
  rw [hkey]
  dsimp only
  set w2 : Player :=
    { w with score := w.score + v.score / 2, kills := w.kills + 1 } with hw2
  set dropped := spawnFoodFromDeadPlayer
    (setPlayer (setPlayer st (killPlayer v)) w2) v (draws 0) with hdroppedDef
  refine ⟨?_, ?_, ?_, ?_, ?_⟩
  · rw [countP_cons_pos _ _ _ (by simp [isDeathOf]),
      countP_cons_neg _ _ _ (by simp [isDeathOf]),
      (spawnFoodFromDeadPlayer_events _ _ _).2 v.id]
  · simp
  · rw [countP_cons_neg _ _ _ (by simp [isFoodSpawn]),
      countP_cons_neg _ _ _ (by simp [isFoodSpawn]),
      (spawnFoodFromDeadPlayer_events _ _ _).1]
  · rw [findPlayer_of_players_eq (spawnFoodFromDeadPlayer_players _ _ _)]
    have hw2id : w2.id = w.id := rfl
    rw [← hw2id]
    refine findPlayer_setPlayer_self _ _ ⟨w, ?_, hw2id.symm ▸ rfl⟩
    exact mem_setPlayer_of_ne hwmem (by simpa [killPlayer] using hwne)
  · rw [findPlayer_of_players_eq (spawnFoodFromDeadPlayer_players _ _ _)]
    rw [findPlayer_setPlayer_ne _ _ _ (show w2.id ≠ v.id from hwne)]
    have hvid : (killPlayer v).id = v.id := rfl
    rw [← hvid]
    exact findPlayer_setPlayer_self _ _ ⟨v, hvmem, hvid.symm ▸ rfl⟩

/-- The victim used to refute claim C1: alive, not invulnerable, head at
`(100, 100)`, three segments, score 10. -/
def c1Victim : Player :=
  { id := "v", name := "V",
    segments := [⟨⟨100, 100⟩⟩, ⟨⟨80, 100⟩⟩, ⟨⟨60, 100⟩⟩], angle := 0,
    speed := 3, boosting := false, boostTime := 0, score := 10, kills := 0,
    alive := true, invulnerable := false, skinId := 0 }

/-- A first living player whose segment index 1 lies 5 units from the
victim's head. -/
def c1KillerA : Player :=
  { id := "a", name := "A", segments := [⟨⟨0, 0⟩⟩, ⟨⟨105, 100⟩⟩], angle := 0,
    speed := 3, boosting := false, boostTime := 0, score := 4, kills := 0,
    alive := true, invulnerable := false, skinId := 0 }

/-- A second living player whose segment index 1 also lies 5 units from
the victim's head. -/
def c1KillerB : Player :=
  { id := "b", name := "B", segments := [⟨⟨0, 0⟩⟩, ⟨⟨95, 100⟩⟩], angle := 0,
    speed := 3, boosting := false, boostTime := 0, score := 6, kills := 0,
    alive := true, invulnerable := false, skinId := 0 }

/-- A room in which the victim's head overlaps body segments of both
other players at once. -/
def c1State : GameState :=
  { players := [c1Victim, c1KillerA, c1KillerB], foods := [],
    worldWidth := 1000, worldHeight := 1000, maxFoods := 50, tickRate := 16,
    worldBoundaryCollisions := true }

/-- Fixed random draws for the death drops of the counterexample. -/
def c1Draws : ℕ → ℕ → DropDraw := fun _ _ => ⟨"fd", 0, 0, 0⟩

/-- Fixed random draws for the boundary branch (never used here). -/
def c1BDraws : ℕ → DropDraw := fun _ => ⟨"fb", 0, 0, 0⟩

/-- Claim C1 fails when the head is simultaneously in collision range of
segments of two other players: the `forEach` continues past the first
collision, so TWO death events are emitted for the victim in a single
check (and both players are credited), not exactly one. -/
theorem checkPlayerCollisions_double_kill_cex :
    countP (checkPlayerCollisions c1State c1Victim c1Draws c1BDraws).2
        (isDeathOf "v") = 2 ∧
      countP (checkPlayerCollisions c1State c1Victim c1Draws c1BDraws).2
        (isDeathOf "v") ≠ 1 := by
  constructor <;>
    · norm_num [c1State, c1Victim, c1KillerA, c1KillerB, c1Draws, c1BDraws,
        checkPlayerCollisions, collideWithOther, segmentHit, dist2, killPlayer,
        setPlayer, spawnFoodFromDeadPlayer, dropFood, jsFloorNat, qfloor,
        setFood, boundaryOut, countP, isDeathOf, List.foldl, List.filter]
      decide

/-- The single-killer room for the C1 witness. -/
def c1wState : GameState :=
  { players := [c1Victim, c1KillerA], foods := [], worldWidth := 1000,
    worldHeight := 1000, maxFoods := 50, tickRate := 16,
    worldBoundaryCollisions := true }

/-- Witness for the amended claim C1 at a concrete single-killer state. -/
theorem first_collision_kill_amended_witness :
    countP (checkPlayerCollisions c1wState c1Victim c1Draws c1BDraws).2
        (isDeathOf c1Victim.id) = 1 ∧
      GameEvent.playerKilled c1Victim.id c1KillerA.id ∈
        (checkPlayerCollisions c1wState c1Victim c1Draws c1BDraws).2 ∧
      countP (checkPlayerCollisions c1wState c1Victim c1Draws c1BDraws).2
        isFoodSpawn = min (c1Victim.segments.length / 3) 20 ∧
      findPlayer (checkPlayerCollisions c1wState c1Victim c1Draws c1BDraws).1
          c1KillerA.id =
        some { c1KillerA with
          score := c1KillerA.score + c1Victim.score / 2,
          kills := c1KillerA.kills + 1 } ∧
      findPlayer (checkPlayerCollisions c1wState c1Victim c1Draws c1BDraws).1
          c1Victim.id =
        some (killPlayer c1Victim) :=
  first_collision_kill_amended c1wState c1Victim c1KillerA
    ⟨⟨100, 100⟩⟩ [⟨⟨80, 100⟩⟩, ⟨⟨60, 100⟩⟩] c1Draws c1BDraws
    [c1Victim] [] rfl
    (by
      intro x hx
      rw [List.mem_singleton] at hx
      subst hx
      exact fun ht => ht.1 rfl)
    (by intro x hx; exact absurd hx (List.not_mem_nil x))
    ⟨by decide, rfl, rfl, by norm_num [segmentHit, dist2, c1KillerA]⟩
    rfl rfl (List.mem_cons_self _ _)
    (by norm_num [c1wState, boundaryOut])

/-! ### Claim C4 — the boost cost over time -/

/-- The movement step iterated over `n` consecutive ticks of the game
loop, for one player. -/
def moveTicks (cosDeg sinDeg : ℚ → ℚ) (st : GameState) (n : ℕ) (p : Player) :
    Player :=
  Nat.iterate (movePlayer cosDeg sinDeg st) n p

/-- Below the 500ms threshold, the boost cost only accumulates. -/
theorem applyBoostCost_noCharge (t : ℚ) (p : Player) (hb : p.boosting = true)
    (hlt : p.boostTime + t < 500) :
    applyBoostCost t p = { p with boostTime := p.boostTime + t } := by
  rw [applyBoostCost, if_pos hb]
  dsimp only
  rw [if_neg (not_le.mpr hlt)]

/-- At the threshold with more than 5 segments, one point and one tail
segment are charged. -/
theorem applyBoostCost_charge (t : ℚ) (p : Player) (hb : p.boosting = true)
    (hge : 500 ≤ p.boostTime + t) (hbig : 5 < p.segments.length) :
    applyBoostCost t p = { p with boostTime := 0, score := p.score - 1, segments := p.segments.dropLast } := by
  rw [applyBoostCost, if_pos hb]
  dsimp only
  rw [if_pos hge, if_pos hbig, if_pos hbig]

/-- At the threshold with 5 or fewer segments, boosting is forced off
with no deduction. -/
theorem applyBoostCost_disable (t : ℚ) (p : Player) (hb : p.boosting = true)
    (hge : 500 ≤ p.boostTime + t) (hsmall : p.segments.length ≤ 5) :
    applyBoostCost t p = { p with boostTime := 0, boosting := false } := by
  rw [applyBoostCost, if_pos hb]
  dsimp only
  rw [if_pos hge, if_neg (not_lt.mpr hsmall)]

/-- One 16ms tick of a living, boosting player: below the 500ms threshold
the accumulator only grows; at the threshold with more than 5 segments,
one score point and one tail segment are charged; at the threshold with
5 or fewer segments, boosting is forced off with no deduction. -/
theorem boost_step (c s : ℚ → ℚ) (st : GameState) (p : Player)
    (htick : st.tickRate = 16) (ha : p.alive = true) (hb : p.boosting = true)
    (hne : p.segments ≠ []) :
    (p.boostTime + 16 < 500 →
      (movePlayer c s st p).boostTime = p.boostTime + 16 ∧
      (movePlayer c s st p).score = p.score ∧
      (movePlayer c s st p).segments.length = p.segments.length ∧
      (movePlayer c s st p).boosting = true ∧
      (movePlayer c s st p).alive = true) ∧
    (500 ≤ p.boostTime + 16 → 5 < p.segments.length →
      (movePlayer c s st p).boostTime = 0 ∧
      (movePlayer c s st p).score = p.score - 1 ∧
      (movePlayer c s st p).segments.length = p.segments.length - 1 ∧
      (movePlayer c s st p).boosting = true ∧
      (movePlayer c s st p).alive = true) ∧
    (500 ≤ p.boostTime + 16 → p.segments.length ≤ 5 →
      (movePlayer c s st p).boostTime = 0 ∧
      (movePlayer c s st p).score = p.score ∧
      (movePlayer c s st p).segments.length = p.segments.length ∧
      (movePlayer c s st p).boosting = false ∧
      (movePlayer c s st p).alive = true) := by
  have hpos : 0 < p.segments.length := List.length_pos.mpr hne
  rw [movePlayer_alive c s st p ha hne, htick]
  refine ⟨?_, ?_, ?_⟩
  · intro hlt
    rw [applyBoostCost_noCharge 16 p hb hlt]
    refine ⟨rfl, rfl, ?_, hb, ha⟩
    rw [shiftBody]
    simp only [List.length_cons, List.length_dropLast]
    omega
  · intro hge hbig
    rw [applyBoostCost_charge 16 p hb hge hbig]
    refine ⟨rfl, rfl, ?_, hb, ha⟩
    rw [shiftBody]
    dsimp only
    simp only [List.length_cons, List.length_dropLast]
    omega
  · intro hge hsmall
    rw [applyBoostCost_disable 16 p hb hge hsmall]
    refine ⟨rfl, rfl, ?_, rfl, ha⟩
    rw [shiftBody]
    simp only [List.length_cons, List.length_dropLast]
    omega

/-- Sustained boosting from an empty accumulator: after `m ≤ 96` ticks of
16ms the accumulator holds `16·(m mod 32)`, and exactly `⌊m / 32⌋`
score points and segments have been charged — one per 512ms, since
the accumulator first reaches 500 on the 32nd tick. -/
theorem boost_run (c s : ℚ → ℚ) (st : GameState) (p : Player)
    (htick : st.tickRate = 16) (ha : p.alive = true) (hb : p.boosting = true)
    (h0 : p.boostTime = 0) (hlen : 8 ≤ p.segments.length) :
    ∀ m, m ≤ 96 →
      (moveTicks c s st m p).boostTime = 16 * ((m % 32 : ℕ) : ℚ) ∧
      (moveTicks c s st m p).score = p.score - m / 32 ∧
      (moveTicks c s st m p).segments.length = p.segments.length - m / 32 ∧
      (moveTicks c s st m p).boosting = true ∧
      (moveTicks c s st m p).alive = true := by
  intro m
  induction m with
  | zero =>
    intro hm
    refine ⟨?_, rfl, rfl, hb, ha⟩
    rw [moveTicks]
    simpa using h0
  | succ m ih =>
    intro hm
    obtain ⟨ibt, isc, ilen, ib, ia⟩ := ih (by omega)
    have hmt : moveTicks c s st (m + 1) p =
        movePlayer c s st (moveTicks c s st m p) := by
      rw [moveTicks, moveTicks, Function.iterate_succ_apply']
    have hqlen : 5 < (moveTicks c s st m p).segments.length := by
      rw [ilen]
      omega
    have hqne : (moveTicks c s st m p).segments ≠ [] :=
      List.ne_nil_of_length_pos (by omega)
    obtain ⟨stepA, stepB, -⟩ :=
      boost_step c s st (moveTicks c s st m p) htick ia ib hqne
    by_cases hcharge : m % 32 = 31
    · have hA : (500 : ℚ) ≤ (moveTicks c s st m p).boostTime + 16 := by
        rw [ibt, hcharge]
        norm_num
      obtain ⟨b1, b2, b3, b4, b5⟩ := stepB hA hqlen
      rw [hmt]
      refine ⟨?_, ?_, ?_, b4, b5⟩
      · rw [b1]
        have : (m + 1) % 32 = 0 := by omega
        rw [this]
        norm_num
      · rw [b2, isc]
        have : (m + 1) / 32 = m / 32 + 1 := by omega
        rw [this]
        omega
      · rw [b3, ilen]
        have h32 : (m + 1) / 32 = m / 32 + 1 := by omega
        rw [h32]
        omega
    · have hlt : (moveTicks c s st m p).boostTime + 16 < 500 := by
        rw [ibt]
        have hle : ((m % 32 : ℕ) : ℚ) ≤ 30 := by
          exact_mod_cast Nat.le_of_lt_succ (by omega : m % 32 < 31)
        linarith
      obtain ⟨a1, a2, a3, a4, a5⟩ := stepA hlt
      rw [hmt]
      refine ⟨?_, ?_, ?_, a4, a5⟩
      · rw [a1, ibt]
        have : (m + 1) % 32 = m % 32 + 1 := by omega
        rw [this]
        push_cast
        ring
      · rw [a2, isc]
        have : (m + 1) / 32 = m / 32 := by omega
        rw [this]
      · rw [a3, ilen]
        have : (m + 1) / 32 = m / 32 := by omega
        rw [this]

/-- A living, boosting 20-segment player with score 10, used against
claim C4. -/
def c4Player : Player :=
  { id := "z", name := "Z", segments := List.replicate 20 ⟨⟨0, 0⟩⟩, angle := 0,
    speed := 3, boosting := true, boostTime := 0, score := 10, kills := 0,
    alive := true, invulnerable := false, skinId := 0 }

/-- A default room for the C4 theorems. -/
def c4State : GameState :=
  { players := [c4Player], foods := [], worldWidth := 1000,
    worldHeight := 1000, maxFoods := 50, tickRate := 16,
    worldBoundaryCollisions := true }

/-- Claim C4 fails: with the 16ms tick the boost accumulator reaches 500
only every 32nd tick (at 512ms, 1024ms, 1536ms, …), so after boosting
through 1500ms — whether read as 93 ticks (1488ms) or 94 ticks (1504ms) —
exactly 2 segments and 2 score points are gone, not 3. -/
theorem boost_1500ms_cex :
    (moveTicks (fun _ => 1) (fun _ => 0) c4State 93 c4Player).segments.length = 18 ∧
      (moveTicks (fun _ => 1) (fun _ => 0) c4State 93 c4Player).score = 8 ∧
      (moveTicks (fun _ => 1) (fun _ => 0) c4State 94 c4Player).segments.length = 18 ∧
      (moveTicks (fun _ => 1) (fun _ => 0) c4State 94 c4Player).score = 8 ∧
      ¬ ((moveTicks (fun _ => 1) (fun _ => 0) c4State 94 c4Player).segments.length =
          20 - 3 ∧
        (moveTicks (fun _ => 1) (fun _ => 0) c4State 94 c4Player).score = 10 - 3) := by
  have hlen20 : c4Player.segments.length = 20 := by
    rw [c4Player]
    exact List.length_replicate 20 _
  have h93 := boost_run (fun _ => 1) (fun _ => 0) c4State c4Player rfl rfl rfl
    rfl (by rw [hlen20]; omega) 93 (by omega)
  have h94 := boost_run (fun _ => 1) (fun _ => 0) c4State c4Player rfl rfl rfl
    rfl (by rw [hlen20]; omega) 94 (by omega)
  obtain ⟨-, hsc93, hlen93, -, -⟩ := h93
  obtain ⟨-, hsc94, hlen94, -, -⟩ := h94
  rw [hlen93, hsc93, hlen94, hsc94, hlen20]
  norm_num [c4Player]

/-- Claim C4 (amended): with the 16ms tick interval, the boost cost is
charged each time the accumulator reaches 500ms, which happens on every
32nd tick (every 512ms), so sustained boosting loses exactly 2 segments
and 2 score points within 1500ms (93 or 94 ticks) and exactly 3 only at
1536ms (96 ticks); at a charge instant with 5 or fewer segments left the
boost is switched off without a deduction, while a charge that pops the
count from 6 to 5 still happens and leaves boosting on — the auto-disable
comes one charge after the count reaches 5, not the instant it would drop
to 5. -/
theorem boost_cost_amended (c s : ℚ → ℚ) (st : GameState) (p : Player)
    (htick : st.tickRate = 16) (ha : p.alive = true) (hb : p.boosting = true)
    (h0 : p.boostTime = 0) (hlen : 8 ≤ p.segments.length) :
    ((moveTicks c s st 93 p).segments.length = p.segments.length - 2 ∧
      (moveTicks c s st 93 p).score = p.score - 2 ∧
      (moveTicks c s st 94 p).segments.length = p.segments.length - 2 ∧
      (moveTicks c s st 94 p).score = p.score - 2 ∧
      (moveTicks c s st 96 p).segments.length = p.segments.length - 3 ∧
      (moveTicks c s st 96 p).score = p.score - 3) ∧
    (∀ q : Player, q.alive = true → q.boosting = true → q.segments ≠ [] →
      500 ≤ q.boostTime + 16 → q.segments.length ≤ 5 →
      (movePlayer c s st q).boosting = false ∧
        (movePlayer c s st q).segments.length = q.segments.length ∧
        (movePlayer c s st q).score = q.score) ∧
    (∀ q : Player, q.alive = true → q.boosting = true →
      500 ≤ q.boostTime + 16 → q.segments.length = 6 →
      (movePlayer c s st q).boosting = true ∧
        (movePlayer c s st q).segments.length = 5 ∧
        (movePlayer c s st q).score = q.score - 1) := by
  refine ⟨?_, ?_, ?_⟩
  · obtain ⟨-, hsc93, hlen93, -, -⟩ :=
      boost_run c s st p htick ha hb h0 hlen 93 (by omega)
    obtain ⟨-, hsc94, hlen94, -, -⟩ :=
      boost_run c s st p htick ha hb h0 hlen 94 (by omega)
    obtain ⟨-, hsc96, hlen96, -, -⟩ :=
      boost_run c s st p htick ha hb h0 hlen 96 (by omega)
    rw [hsc93, hlen93, hsc94, hlen94, hsc96, hlen96]
    norm_num
  · intro q qa qb qne qge qsmall
    obtain ⟨-, -, hdis⟩ := boost_step c s st q htick qa qb qne
    obtain ⟨-, d2, d3, d4, -⟩ := hdis qge qsmall
    exact ⟨d4, d3, d2⟩
  · intro q qa qb qge qlen
    have qne : q.segments ≠ [] := List.ne_nil_of_length_pos (by omega)
    obtain ⟨-, hch, -⟩ := boost_step c s st q htick qa qb qne
    obtain ⟨-, b2, b3, b4, -⟩ := hch qge (by omega)
    refine ⟨b4, ?_, b2⟩
    rw [b3, qlen]

/-- Witness for the amended claim C4 at the concrete boosting player. -/
theorem boost_cost_amended_witness :
    (((moveTicks (fun _ => 1) (fun _ => 0) c4State 93 c4Player).segments.length =
        c4Player.segments.length - 2 ∧
      (moveTicks (fun _ => 1) (fun _ => 0) c4State 93 c4Player).score =
        c4Player.score - 2 ∧
      (moveTicks (fun _ => 1) (fun _ => 0) c4State 94 c4Player).segments.length =
        c4Player.segments.length - 2 ∧
      (moveTicks (fun _ => 1) (fun _ => 0) c4State 94 c4Player).score =
        c4Player.score - 2 ∧
      (moveTicks (fun _ => 1) (fun _ => 0) c4State 96 c4Player).segments.length =
        c4Player.segments.length - 3 ∧
      (moveTicks (fun _ => 1) (fun _ => 0) c4State 96 c4Player).score =
        c4Player.score - 3) ∧
    (∀ q : Player, q.alive = true → q.boosting = true → q.segments ≠ [] →
      500 ≤ q.boostTime + 16 → q.segments.length ≤ 5 →
      (movePlayer (fun _ => 1) (fun _ => 0) c4State q).boosting = false ∧
        (movePlayer (fun _ => 1) (fun _ => 0) c4State q).segments.length =
          q.segments.length ∧
        (movePlayer (fun _ => 1) (fun _ => 0) c4State q).score = q.score) ∧
    (∀ q : Player, q.alive = true → q.boosting = true →
      500 ≤ q.boostTime + 16 → q.segments.length = 6 →
      (movePlayer (fun _ => 1) (fun _ => 0) c4State q).boosting = true ∧
        (movePlayer (fun _ => 1) (fun _ => 0) c4State q).segments.length = 5 ∧
        (movePlayer (fun _ => 1) (fun _ => 0) c4State q).score = q.score - 1)) :=
  boost_cost_amended (fun _ => 1) (fun _ => 0) c4State c4Player rfl rfl rfl rfl
    (by rw [c4Player]; rw [List.length_replicate]; omega)

/-! ### Concrete end-to-end evaluations

Two sanity evaluations exercising the success paths of the intent
handlers on concrete rooms, showing the guarded branches of claims C5
and C9 are reachable. -/

/-- A living one-segment player with its head at the origin. -/
def demoEater : Player :=
  { id := "e", name := "E", segments := [⟨⟨0, 0⟩⟩], angle := 0, speed := 3,
    boosting := false, boostTime := 0, score := 0, kills := 0, alive := true,
    invulnerable := false, skinId := 0 }

/-- A room with one rare food 100 units from the eater's head. -/
def demoRoom : GameState :=
  { players := [demoEater], foods := [⟨"fA", ⟨100, 0⟩, 5⟩],
    worldWidth := 1000, worldHeight := 1000, maxFoods := 50, tickRate := 16,
    worldBoundaryCollisions := true }

/-- Scenario C of the spec, evaluated: value-5 food at distance 100 is
consumed — 5 score gained, 3 tail segments appended, the food replaced
by exactly one fresh spawn, and the consumption broadcast. -/
theorem handleEatFood_demo :
    (handleEatFood demoRoom "e" "fA" ⟨"fB", 1 / 4, 1 / 2, 1 / 2⟩).2 =
        [GameEvent.foodConsumed "fA" "e" 5,
         GameEvent.foodSpawned "fB" ⟨250, 500⟩ 1] ∧
      (findPlayer (handleEatFood demoRoom "e" "fA"
          ⟨"fB", 1 / 4, 1 / 2, 1 / 2⟩).1 "e").map Player.score = some 5 ∧
      (findPlayer (handleEatFood demoRoom "e" "fA"
          ⟨"fB", 1 / 4, 1 / 2, 1 / 2⟩).1 "e").map
        (fun q => q.segments.length) = some 4 ∧
      findFood (handleEatFood demoRoom "e" "fA"
        ⟨"fB", 1 / 4, 1 / 2, 1 / 2⟩).1 "fA" = none := by
  norm_num +decide [demoRoom, demoEater, handleEatFood, findPlayer, findFood,
    setPlayer, setFood, deleteFood, spawnFood, dist2, Player.head,
    Player.addSegment, List.find?, List.filter, List.range_succ]

/-- The demo victim of the self-reported death: score 10, three
segments. -/
def demoVictim : Player :=
  { demoEater with score := 10, segments := [⟨⟨0, 0⟩⟩, ⟨⟨20, 0⟩⟩, ⟨⟨40, 0⟩⟩] }

/-- The room holding the demo victim and a killer. -/
def demoRoom2 : GameState :=
  { demoRoom with players := [demoVictim, c1KillerA] }

/-- The self-reported death intent, evaluated: the sender dies, the named
killer gains `⌊10 / 2⌋ = 5` score and one kill, and one food drops from
the three-segment body. -/
theorem handlePlayerDied_demo :
    (handlePlayerDied demoRoom2 "e" (some "a")
        (fun _ => ⟨"fd", 0, 0, 0⟩)).2.head? =
        some (GameEvent.playerDied "e") ∧
      (findPlayer (handlePlayerDied demoRoom2 "e" (some "a")
          (fun _ => ⟨"fd", 0, 0, 0⟩)).1 "a").map Player.score = some 9 ∧
      (findPlayer (handlePlayerDied demoRoom2 "e" (some "a")
          (fun _ => ⟨"fd", 0, 0, 0⟩)).1 "a").map Player.kills = some 1 ∧
      (findPlayer (handlePlayerDied demoRoom2 "e" (some "a")
          (fun _ => ⟨"fd", 0, 0, 0⟩)).1 "e").map Player.alive = some false := by
  norm_num +decide [demoRoom2, demoRoom, demoVictim, demoEater, c1KillerA,
    handlePlayerDied, findPlayer, killPlayer, setPlayer,
    spawnFoodFromDeadPlayer, dropFood, jsFloorNat, qfloor, setFood,
    List.find?, List.foldl]

end Snake
